import Mathlib

/-
  Verification development for the compilation core of the hal compiler
  (a Go port of the 9cc C compiler): the AST-to-IR lowering pass
  (gen_stmt / gen_expr / gen_lval / gen_binop in the IR module) and the
  linear register allocator (alloc / kill / alloc_regs in regalloc.go),
  shallowly embedded.  Go machine integers never approach overflow in the
  fragments modelled here (register counters, label counters, opcode tags),
  so they are embedded as unbounded Int, matching the source arithmetic.
  Fatal errors (the error(...) helper, which prints a diagnostic and
  aborts, and Go runtime panics such as out-of-range indexing) are
  embedded as Except.error with the diagnostic string.
-/

set_option maxHeartbeats 4000000
set_option linter.unusedVariables false
set_option linter.unreachableTactic false
set_option linter.unusedTactic false

namespace Hal

/- IR opcodes, from the iota+256 constant block of the IR module. -/
def IR_ADD : Int := 256
def IR_SUB : Int := 257
def IR_MUL : Int := 258
def IR_DIV : Int := 259
def IR_IMM : Int := 260
def IR_SUB_IMM : Int := 261
def IR_MOV : Int := 262
def IR_RETURN : Int := 263
def IR_CALL : Int := 264
def IR_LABEL : Int := 265
def IR_LT : Int := 266
def IR_JMP : Int := 267
def IR_UNLESS : Int := 268
def IR_LOAD32 : Int := 269
def IR_LOAD64 : Int := 270
def IR_STORE32 : Int := 271
def IR_STORE64 : Int := 272
def IR_STORE32_ARG : Int := 273
def IR_STORE64_ARG : Int := 274
def IR_KILL : Int := 275
def IR_NOP : Int := 276

/- IR operand shapes, from the iota+256 IR_TY constant block. -/
def IR_TY_NOARG : Int := 256
def IR_TY_REG : Int := 257
def IR_TY_IMM : Int := 258
def IR_TY_JMP : Int := 259
def IR_TY_LABEL : Int := 260
def IR_TY_REG_REG : Int := 261
def IR_TY_REG_IMM : Int := 262
def IR_TY_IMM_IMM : Int := 263
def IR_TY_REG_LABEL : Int := 264
def IR_TY_CALL : Int := 265

attribute [simp] IR_ADD IR_SUB IR_MUL IR_DIV IR_IMM IR_SUB_IMM IR_MOV IR_RETURN IR_CALL
  IR_LABEL IR_LT IR_JMP IR_UNLESS IR_LOAD32 IR_LOAD64 IR_STORE32 IR_STORE64
  IR_STORE32_ARG IR_STORE64_ARG IR_KILL IR_NOP
  IR_TY_NOARG IR_TY_REG IR_TY_IMM IR_TY_JMP IR_TY_LABEL IR_TY_REG_REG IR_TY_REG_IMM
  IR_TY_IMM_IMM IR_TY_REG_LABEL IR_TY_CALL

/-- One IR instruction: struct IR {op, lhs, rhs int; name string; nargs int;
args [6]int}.  The fixed six-slot args array is a list that is kept at
length 6.  A Go new(IR) zero value has name "", nargs 0, args all zero. -/
structure IR where
  op : Int
  lhs : Int
  rhs : Int
  name : String
  nargs : Int
  args : List Int
deriving Repr, DecidableEq

/-- An IR built by add(op, lhs, rhs): the call-specific payload keeps its
Go zero values. -/
def mkIR (op lhs rhs : Int) : IR :=
  ⟨op, lhs, rhs, "", 0, List.replicate 6 0⟩

structure IRInfo where
  name : String
  ty : Int
deriving Repr, DecidableEq

/-- The irinfo opcode catalog (the map literal in the IR module).  A Go
map lookup of a missing key yields the zero value IRInfo{"", 0}, which
coincides with the explicit 0 entry of the literal. -/
def irinfo (op : Int) : IRInfo :=
  if op = IR_ADD then ⟨"ADD", IR_TY_REG_REG⟩
  else if op = IR_SUB then ⟨"SUB", IR_TY_REG_REG⟩
  else if op = IR_MUL then ⟨"MUL", IR_TY_REG_REG⟩
  else if op = IR_DIV then ⟨"DIV", IR_TY_REG_REG⟩
  else if op = IR_IMM then ⟨"MOV", IR_TY_REG_IMM⟩
  else if op = IR_SUB_IMM then ⟨"SUB", IR_TY_REG_IMM⟩
  else if op = IR_MOV then ⟨"MOV", IR_TY_REG_REG⟩
  else if op = IR_LABEL then ⟨"", IR_TY_LABEL⟩
  else if op = IR_LT then ⟨"LT", IR_TY_REG_REG⟩
  else if op = IR_JMP then ⟨"JMP", IR_TY_JMP⟩
  else if op = IR_UNLESS then ⟨"UNLESS", IR_TY_REG_LABEL⟩
  else if op = IR_CALL then ⟨"CALL", IR_TY_CALL⟩
  else if op = IR_RETURN then ⟨"RET", IR_TY_REG⟩
  else if op = IR_LOAD32 then ⟨"LOAD32", IR_TY_REG_REG⟩
  else if op = IR_LOAD64 then ⟨"LOAD64", IR_TY_REG_REG⟩
  else if op = IR_STORE32 then ⟨"STORE32", IR_TY_REG_REG⟩
  else if op = IR_STORE64 then ⟨"STORE64", IR_TY_REG_REG⟩
  else if op = IR_STORE32_ARG then ⟨"STORE32_ARG", IR_TY_IMM_IMM⟩
  else if op = IR_STORE64_ARG then ⟨"STORE64_ARG", IR_TY_IMM_IMM⟩
  else if op = IR_KILL then ⟨"KILL", IR_TY_REG⟩
  else if op = IR_NOP then ⟨"NOP", IR_TY_NOARG⟩
  else ⟨"", 0⟩

/-- Modelled from the spec: get_irinfo is defined in a source file not
included here; per the opcode/shape catalog of the spec (section 3) it
returns the irinfo entry for the instruction opcode, which is exactly
the irinfo map literal present in the IR module source. -/
def get_irinfo (ir : IR) : IRInfo :=
  irinfo ir.op

/-- Diagnostic of a Go out-of-range index panic. -/
def msgOOB : String := "index out of range"

/-- Diagnostic of alloc when every physical register is occupied. -/
def msgExhausted : String := "register exhausted"

/-- Reading xs[i] with a Go int index: out of range is a runtime panic. -/
def getIdx (xs : List Int) (i : Int) : Except String Int :=
  if i < 0 then .error msgOOB
  else
    match xs[i.toNat]? with
    | some v => .ok v
    | none => .error msgOOB

namespace Regalloc

/-- The global allocator state of regalloc.go: reg_map (virtual index to
physical index, -1 when unassigned) and the eight-slot occupancy array
used.  used is always kept at length 8 (a Go [8]bool). -/
structure RSt where
  reg_map : List Int
  used : List Bool
deriving Repr, DecidableEq

/-- The ordered physical register pool (var regs). -/
def regs : List String :=
  ["rdi", "rsi", "r10", "r11", "r12", "r13", "r14", "r15"]

/-- The scan of alloc: for i := 0; i < len(regs); i++ skip the occupied
slots and return the first free index.  The occupancy array always has
length len(regs) = 8, so scanning the list is the same loop. -/
def firstFreeAux : List Bool → Nat → Option Nat
  | [], _ => none
  | b :: rest, i => if b then firstFreeAux rest (i + 1) else some i

/-- func alloc(ir_reg int) int: return the recorded mapping when present,
otherwise assign the lowest free physical register, or fail fatally. -/
def alloc (ir_reg : Int) (s : RSt) : Except String (Int × RSt) :=
  match getIdx s.reg_map ir_reg with
  | .error e => .error e
  | .ok m =>
    if m ≠ -1 then .ok (m, s)
    else
      match firstFreeAux s.used 0 with
      | some i =>
        .ok ((i : Int),
          { reg_map := s.reg_map.set ir_reg.toNat (i : Int),
            used := s.used.set i true })
      | none => .error msgExhausted

/-- func kill(r int): used[r] = false; a negative or too large index is a
runtime panic. -/
def kill (r : Int) (s : RSt) : Except String RSt :=
  if h : 0 ≤ r ∧ r.toNat < s.used.length then
    .ok { s with used := s.used.set r.toNat false }
  else .error msgOOB

/-- The body of the alloc_regs loop for one instruction: rewrite the
register operands according to the operand shape, then rewrite KILL to
NOP after freeing reg_map[ir.lhs] (note: read after ir.lhs has already
been rewritten by the shape switch, KILL having shape REG). -/
def alloc_regs_step (ir0 : IR) (s0 : RSt) : Except String (IR × RSt) :=
  let info := get_irinfo ir0
  let step1 : Except String (IR × RSt) :=
    if info.ty = IR_TY_REG ∨ info.ty = IR_TY_REG_IMM ∨ info.ty = IR_TY_REG_LABEL then
      match alloc ir0.lhs s0 with
      | .error e => .error e
      | .ok (l, s) => .ok ({ ir0 with lhs := l }, s)
    else if info.ty = IR_TY_REG_REG then
      match alloc ir0.lhs s0 with
      | .error e => .error e
      | .ok (l, s) =>
        match alloc ir0.rhs s with
        | .error e => .error e
        | .ok (r, t) => .ok ({ ir0 with lhs := l, rhs := r }, t)
    else .ok (ir0, s0)
  match step1 with
  | .error e => .error e
  | .ok (ir1, s1) =>
    if ir1.op = IR_KILL then
      match getIdx s1.reg_map ir1.lhs with
      | .error e => .error e
      | .ok p =>
        match kill p s1 with
        | .error e => .error e
        | .ok s2 => .ok ({ ir1 with op := IR_NOP }, s2)
    else .ok (ir1, s1)

/-- The alloc_regs traversal over the instruction vector. -/
def alloc_regs_go (irs : List IR) (s : RSt) : Except String (List IR × RSt) :=
  match irs with
  | [] => .ok ([], s)
  | ir :: rest =>
    match alloc_regs_step ir s with
    | .error e => .error e
    | .ok (ir1, s1) =>
      match alloc_regs_go rest s1 with
      | .error e => .error e
      | .ok (rest1, s2) => .ok (ir1 :: rest1, s2)

/-- func alloc_regs(irv *Vector): reg_map is recreated with one -1 entry
per instruction; the occupancy array is the package-level used, all
false at process start.  The rewritten vector and the final allocator
state are returned (the Go code mutates in place). -/
def alloc_regs (irs : List IR) : Except String (List IR × RSt) :=
  alloc_regs_go irs
    { reg_map := List.replicate irs.length (-1),
      used := List.replicate 8 false }

/-! The allocator-state invariant: the occupancy array has the pool
size and every recorded mapping is unassigned or a physical index. -/

def RInv (s : RSt) : Prop :=
  s.used.length = 8 ∧ ∀ x ∈ s.reg_map, x = -1 ∨ (0 ≤ x ∧ x < 8)

/-- Entries already recorded in reg_map survive the rest of the run. -/
def MapMono (s s1 : RSt) : Prop :=
  ∀ w m, getIdx s.reg_map w = .ok m → m ≠ -1 → getIdx s1.reg_map w = .ok m

/-- What one alloc_regs loop iteration guarantees about the rewritten
instruction, stated against any later allocator state whose recorded
mappings extend the post-step one: the opcode is unchanged except that
KILL becomes NOP, the call payload is untouched, operands of register
shapes are physical indices, and a REG_REG rhs that was the virtual
index 0 is recorded in the map at slot 0. -/
def StepOut (a b : IR) (sfin : RSt) : Prop :=
  (b.op = if a.op = IR_KILL then IR_NOP else a.op) ∧
  b.name = a.name ∧ b.nargs = a.nargs ∧ b.args = a.args ∧
  ((get_irinfo a).ty = IR_TY_REG ∨ (get_irinfo a).ty = IR_TY_REG_IMM ∨
      (get_irinfo a).ty = IR_TY_REG_LABEL →
    (0 ≤ b.lhs ∧ b.lhs < 8) ∧ b.rhs = a.rhs) ∧
  ((get_irinfo a).ty = IR_TY_REG_REG →
    (0 ≤ b.lhs ∧ b.lhs < 8) ∧ (0 ≤ b.rhs ∧ b.rhs < 8)) ∧
  ((get_irinfo a).ty = IR_TY_REG_REG → a.rhs = 0 →
    getIdx sfin.reg_map 0 = .ok b.rhs)

end Regalloc

/- AST node opcodes, from the iota+256 constant block of the parser,
plus the character-code opcodes used directly by the lowering switch. -/
def ND_NUM : Int := 256
def ND_STR : Int := 257
def ND_IDENT : Int := 258
def ND_STRUCT : Int := 259
def ND_VARDEF : Int := 260
def ND_LVAR : Int := 261
def ND_GVAR : Int := 262
def ND_IF : Int := 263
def ND_FOR : Int := 264
def ND_DO_WHILE : Int := 265
def ND_ADDR : Int := 266
def ND_DEREF : Int := 267
def ND_DOT : Int := 268
def ND_EQ : Int := 269
def ND_NE : Int := 270
def ND_LOGOR : Int := 271
def ND_LOGAND : Int := 272
def ND_RETURN : Int := 273
def ND_SIZEOF : Int := 274
def ND_ALIGNOF : Int := 275
def ND_CALL : Int := 276
def ND_FUNC : Int := 277
def ND_COMP_STMT : Int := 278
def ND_EXPR_STMT : Int := 279
def ND_STMT_EXPR : Int := 280
def ND_NULL : Int := 281

/-- The character-code opcode of '+'. -/
def OP_PLUS : Int := 43
/-- The character-code opcode of '-'. -/
def OP_MINUS : Int := 45
/-- The character-code opcode of '*'. -/
def OP_STAR : Int := 42
/-- The character-code opcode of '/'. -/
def OP_SLASH : Int := 47
/-- The character-code opcode of '<'. -/
def OP_LT : Int := 60
/-- The character-code opcode of '='. -/
def OP_ASSIGN : Int := 61

/- C type kinds, from the INT/CHAR/PTR/ARY/STRUCT iota block. -/
def TY_INT : Int := 0
def TY_CHAR : Int := 1
def TY_PTR : Int := 2
def TY_ARY : Int := 3
def TY_STRUCT : Int := 4

attribute [simp] ND_NUM ND_STR ND_IDENT ND_STRUCT ND_VARDEF ND_LVAR ND_GVAR ND_IF ND_FOR
  ND_DO_WHILE ND_ADDR ND_DEREF ND_DOT ND_EQ ND_NE ND_LOGOR ND_LOGAND ND_RETURN ND_SIZEOF
  ND_ALIGNOF ND_CALL ND_FUNC ND_COMP_STMT ND_EXPR_STMT ND_STMT_EXPR ND_NULL
  OP_PLUS OP_MINUS OP_STAR OP_SLASH OP_LT OP_ASSIGN TY_INT TY_CHAR TY_PTR TY_ARY TY_STRUCT

/-- The parser's struct Type: kind tag, size, align, pointee, array
element type and length.  The struct-member vector is omitted: no
function embedded here reads it. -/
inductive CTy where
  | mk (ty : Int) (size : Int) (align : Int)
       (ptr_to : Option CTy) (ary_of : Option CTy) (len : Int)
deriving Repr

def CTy.ty : CTy → Int
  | .mk t _ _ _ _ _ => t

def CTy.size : CTy → Int
  | .mk _ s _ _ _ _ => s

def CTy.ptr_to : CTy → Option CTy
  | .mk _ _ _ p _ _ => p

/-- var int_ty = Type{ty: INT, size: 4, align: 4}. -/
def int_ty : CTy := CTy.mk TY_INT 4 4 none none 0

/-- Modelled from the spec: size_of is defined in a source file not
included here; the spec's type record (section 3) carries the computed
size of every type, so size_of returns that field. -/
def size_of (t : CTy) : Int := t.size

/-- The parser's struct Node restricted to the fields the lowering pass
reads: opcode, type, literal value, identifier, frame offset, the child
links lhs/rhs/expr/cond/then/els/init/body/inc, the compound-statement
list and the call-argument vector.  Child pointers are Option (Go nil);
the Go nil *Type on nodes whose type is never read is embedded as a
dummy int_ty.  (then and init are spelled thn and ini: Lean keywords.) -/
inductive Node where
  | mk (op : Int) (ty : CTy) (val : Int) (name : String) (offset : Int)
       (lhs rhs expr cond thn els ini body inc : Option Node)
       (stmts : List Node) (args : List Node)
deriving Repr

def Node.op : Node → Int
  | .mk o _ _ _ _ _ _ _ _ _ _ _ _ _ _ _ => o

def Node.ty : Node → CTy
  | .mk _ t _ _ _ _ _ _ _ _ _ _ _ _ _ _ => t

namespace IRGen

/-- The per-function lowering state: the global code vector and the
counters nreg and nlabel. -/
structure GenSt where
  code : List IR
  nreg : Int
  nlabel : Int
deriving Repr, DecidableEq

/-- func add(op, lhs, rhs int) *IR: append a fresh IR to code. -/
def add (op lhs rhs : Int) (s : GenSt) : GenSt :=
  { s with code := s.code ++ [mkIR op lhs rhs] }

/-- func kill(r int) of the IR module: emit an explicit KILL marker. -/
def kill (r : Int) (s : GenSt) : GenSt :=
  add IR_KILL r (-1) s

/-- func label(x int): emit a LABEL. -/
def label (x : Int) (s : GenSt) : GenSt :=
  add IR_LABEL x (-1) s

/-- The kill loop after a CALL: for i := 0; i < ir.nargs; i++
kill(ir.args[i]). -/
def killList (rs : List Int) (s : GenSt) : GenSt :=
  match rs with
  | [] => s
  | r :: rest => killList rest (kill r s)

/-- Diagnostic of a Go nil-pointer dereference panic (lowering a node
whose required child link is nil). -/
def msgNil : String := "nil pointer dereference"

/-- error("unknown node: %d", node.op) in gen_stmt. -/
def unknownNodeMsg (op : Int) : String :=
  "unknown node: " ++ toString op

/-- error("not an lvalue: %d (%s)", node.op, node.name) in gen_lval. -/
def notLvalueMsg (op : Int) (name : String) : String :=
  "not an lvalue: " ++ toString op ++ " (" ++ name ++ ")"

/-- Go size_of applied through a possibly nil *Type (the pointee link):
a nil pointee is a runtime panic inside size_of. -/
def size_of_opt : Option CTy → Except String Int
  | none => .error msgNil
  | some t => .ok (size_of t)

/-- The ND_NUM case body of gen_expr: a fresh register loaded with the
literal. -/
def ge_num : Node → GenSt → Except String (Int × GenSt)
  | .mk _op _ty val _name _offset _lhs _rhs _expr _cond _thn _els _ini _body _inc _stmts _args, s =>
    let r := s.nreg
    let s := { s with nreg := s.nreg + 1 }
    .ok (r, add IR_IMM r val s)

mutual

/-- func gen_lval(node *Node) int. -/
def gen_lval : Node → GenSt → Except String (Int × GenSt)
  | .mk op _ty _val name offset _lhs _rhs expr _cond _thn _els _ini _body _inc _stmts _args, s =>
    if op = ND_DEREF then
      match expr with
      | some e => gen_expr e s
      | none => .error msgNil
    else if op = ND_LVAR then
      let r := s.nreg
      let s := { s with nreg := s.nreg + 1 }
      let s := add IR_MOV r 0 s
      let s := add IR_SUB_IMM r offset s
      .ok (r, s)
    else
      .error (notLvalueMsg op name)
termination_by n s => (sizeOf n, 0)
decreasing_by all_goals (subst_vars; try (injections; subst_vars); decreasing_tactic)

/-- gen_expr applied through a possibly nil child pointer: the Go call
gen_expr(node.child) panics inside the callee when the pointer is nil. -/
def gen_expr_opt : Option Node → GenSt → Except String (Int × GenSt)
  | none, _ => .error msgNil
  | some n, s => gen_expr n s
termination_by o s => (sizeOf o, 3)
decreasing_by all_goals (subst_vars; try (injections; subst_vars); decreasing_tactic)

/-- gen_lval applied through a possibly nil child pointer. -/
def gen_lval_opt : Option Node → GenSt → Except String (Int × GenSt)
  | none, _ => .error msgNil
  | some n, s => gen_lval n s
termination_by o s => (sizeOf o, 3)
decreasing_by all_goals (subst_vars; try (injections; subst_vars); decreasing_tactic)

/-- func gen_binop(ty int, lhs, rhs *Node) int: evaluate left then
right, combine into the left register, release the right one. -/
def gen_binop (ty : Int) (lhs rhs : Node) (s : GenSt) : Except String (Int × GenSt) := do
  let (r1, s) ← gen_expr lhs s
  let (r2, s) ← gen_expr rhs s
  let s := add ty r1 r2 s
  .ok (r1, kill r2 s)
termination_by (sizeOf lhs + sizeOf rhs + 2, 0)
decreasing_by all_goals (subst_vars; try (injections; subst_vars); decreasing_tactic)

/-- The argument loop of the ND_CALL case: args[i] = gen_expr(arg i)
into the fixed six-slot array; a write at index 6 or beyond is a Go
out-of-range panic. -/
def gen_call_args : List Node → Nat → List Int → GenSt → Except String (List Int × GenSt)
  | [], _, acc, s => .ok (acc, s)
  | n :: rest, i, acc, s => do
    let (r, s) ← gen_expr n s
    if i < acc.length then gen_call_args rest (i + 1) (acc.set i r) s
    else .error msgOOB
termination_by ns i acc s => (sizeOf ns, 0)
decreasing_by all_goals (subst_vars; try (injections; subst_vars); decreasing_tactic)

/-- The ND_LOGAND case body of gen_expr. -/
def ge_logand : Node → GenSt → Except String (Int × GenSt)
  | .mk _op _ty _val _name _offset lhs rhs _expr _cond _thn _els _ini _body _inc _stmts _args, s => do
    let x := s.nlabel
    let s := { s with nlabel := s.nlabel + 1 }
    let (r1, s) ← gen_expr_opt lhs s
    let s := add IR_UNLESS r1 x s
    let (r2, s) ← gen_expr_opt rhs s
    let s := add IR_MOV r1 r2 s
    let s := kill r2 s
    let s := add IR_UNLESS r1 x s
    let s := add IR_IMM r1 1 s
    .ok (r1, label x s)
termination_by n s => (sizeOf n, 1)
decreasing_by all_goals (subst_vars; try (injections; subst_vars); decreasing_tactic)

/-- The ND_LOGOR case body of gen_expr. -/
def ge_logor : Node → GenSt → Except String (Int × GenSt)
  | .mk _op _ty _val _name _offset lhs rhs _expr _cond _thn _els _ini _body _inc _stmts _args, s => do
    let x := s.nlabel
    let s := { s with nlabel := s.nlabel + 1 }
    let y := s.nlabel
    let s := { s with nlabel := s.nlabel + 1 }
    let (r1, s) ← gen_expr_opt lhs s
    let s := add IR_UNLESS r1 x s
    let s := add IR_IMM r1 1 s
    let s := add IR_JMP y (-1) s
    let s := label x s
    let (r2, s) ← gen_expr_opt rhs s
    let s := add IR_MOV r1 r2 s
    let s := kill r2 s
    let s := add IR_UNLESS r1 y s
    let s := add IR_IMM r1 1 s
    .ok (r1, label y s)
termination_by n s => (sizeOf n, 1)
decreasing_by all_goals (subst_vars; try (injections; subst_vars); decreasing_tactic)

/-- The ND_LVAR case body of gen_expr: the variable address from
gen_lval, then a load whose width follows the node type. -/
def ge_lvar (nd : Node) (s : GenSt) : Except String (Int × GenSt) := do
  let (r, s) ← gen_lval nd s
  let s := if nd.ty.ty = TY_PTR then add IR_LOAD64 r r s else add IR_LOAD32 r r s
  .ok (r, s)
termination_by (sizeOf nd, 1)
decreasing_by all_goals (subst_vars; try (injections; subst_vars); decreasing_tactic)

/-- The ND_CALL case body of gen_expr: evaluate the arguments into the
fixed array, push the CALL instruction (the source mutates the pushed
IR's name, nargs and args fields), then kill the first nargs argument
registers. -/
def ge_call : Node → GenSt → Except String (Int × GenSt)
  | .mk _op _ty _val name _offset _lhs _rhs _expr _cond _thn _els _ini _body _inc _stmts args, s => do
    let (as6, s) ← gen_call_args args 0 (List.replicate 6 0) s
    let r := s.nreg
    let s := { s with nreg := s.nreg + 1 }
    let s := { s with code := s.code ++ [⟨IR_CALL, r, -1, name, (args.length : Int), as6⟩] }
    .ok (r, killList (as6.take args.length) s)
termination_by n s => (sizeOf n, 1)
decreasing_by all_goals (subst_vars; try (injections; subst_vars); decreasing_tactic)

/-- The ND_ADDR case body of gen_expr: the bare lvalue address. -/
def ge_addr : Node → GenSt → Except String (Int × GenSt)
  | .mk _op _ty _val _name _offset _lhs _rhs expr _cond _thn _els _ini _body _inc _stmts _args, s =>
    match expr with
    | some e => gen_lval e s
    | none => .error msgNil
termination_by n s => (sizeOf n, 1)
decreasing_by all_goals (subst_vars; try (injections; subst_vars); decreasing_tactic)

/-- The ND_DEREF case body of gen_expr: evaluate the pointer and load
through it. -/
def ge_deref : Node → GenSt → Except String (Int × GenSt)
  | .mk _op _ty _val _name _offset _lhs _rhs expr _cond _thn _els _ini _body _inc _stmts _args, s =>
    match expr with
    | none => .error msgNil
    | some e => do
      let (r, s) ← gen_expr e s
      .ok (r, add IR_LOAD64 r r s)
termination_by n s => (sizeOf n, 1)
decreasing_by all_goals (subst_vars; try (injections; subst_vars); decreasing_tactic)

/-- The core of the assignment case for non-nil children: rhs value
first, then the lvalue address, a width-selected store, and the release
of the value register. -/
def ge_assign_core (l r : Node) (s : GenSt) : Except String (Int × GenSt) := do
  let (rr, s) ← gen_expr r s
  let (ll, s) ← gen_lval l s
  let s := if l.ty.ty = TY_PTR then add IR_STORE64 ll rr s else add IR_STORE32 ll rr s
  .ok (ll, kill rr s)
termination_by (sizeOf l + sizeOf r + 2, 0)
decreasing_by all_goals (subst_vars; try (injections; subst_vars); decreasing_tactic)

/-- The assignment case body of gen_expr. -/
def ge_assign : Node → GenSt → Except String (Int × GenSt)
  | .mk _op _ty _val _name _offset lhs rhs _expr _cond _thn _els _ini _body _inc _stmts _args, s =>
    match lhs with
    | none => .error msgNil
    | some l =>
      match rhs with
      | none => .error msgNil
      | some r => ge_assign_core l r s
termination_by n s => (sizeOf n, 1)
decreasing_by all_goals (subst_vars; try (injections; subst_vars); decreasing_tactic)

/-- The pointer-scaling path of the '+'/'-' case for non-nil children
and a pointer-typed left operand: evaluate rhs, scale it by the pointee
size through a fresh register, then evaluate lhs and combine. -/
def ge_addsub_ptr (insn : Int) (l r : Node) (s : GenSt) : Except String (Int × GenSt) := do
  let (rr, s) ← gen_expr r s
  let rg := s.nreg
  let s := { s with nreg := s.nreg + 1 }
  let sz ← size_of_opt l.ty.ptr_to
  let s := add IR_IMM rg sz s
  let s := add IR_MUL rr rg s
  let s := kill rg s
  let (ll, s) ← gen_expr l s
  let s := add insn ll rr s
  .ok (ll, kill rr s)
termination_by (sizeOf l + sizeOf r + 2, 1)
decreasing_by all_goals (subst_vars; try (injections; subst_vars); decreasing_tactic)

/-- The '+'/'-' case body of gen_expr: plain gen_binop unless the left
operand is a pointer, in which case the right operand is evaluated and
scaled by the pointee size first. -/
def ge_addsub : Node → GenSt → Except String (Int × GenSt)
  | .mk op _ty _val _name _offset lhs rhs _expr _cond _thn _els _ini _body _inc _stmts _args, s =>
    let insn := if op = OP_PLUS then IR_ADD else IR_SUB
    match lhs with
    | none => .error msgNil
    | some l =>
      match rhs with
      | none => .error msgNil
      | some r =>
        if l.ty.ty ≠ TY_PTR then gen_binop insn l r s
        else ge_addsub_ptr insn l r s
termination_by n s => (sizeOf n, 1)
decreasing_by all_goals (subst_vars; try (injections; subst_vars); decreasing_tactic)

/-- The '*', '/' and '<' case bodies of gen_expr: gen_binop on the two
children with the given IR opcode. -/
def ge_bin (irop : Int) : Node → GenSt → Except String (Int × GenSt)
  | .mk _op _ty _val _name _offset lhs rhs _expr _cond _thn _els _ini _body _inc _stmts _args, s =>
    match lhs, rhs with
    | some l, some r => gen_binop irop l r s
    | _, _ => .error msgNil
termination_by n s => (sizeOf n, 1)
decreasing_by all_goals (subst_vars; try (injections; subst_vars); decreasing_tactic)

/-- func gen_expr(node *Node) int: the switch on node.op, each case body
in its helper. -/
def gen_expr (nd : Node) (s : GenSt) : Except String (Int × GenSt) :=
  if nd.op = ND_NUM then ge_num nd s
  else if nd.op = ND_LOGAND then ge_logand nd s
  else if nd.op = ND_LOGOR then ge_logor nd s
  else if nd.op = ND_LVAR then ge_lvar nd s
  else if nd.op = ND_CALL then ge_call nd s
  else if nd.op = ND_ADDR then ge_addr nd s
  else if nd.op = ND_DEREF then ge_deref nd s
  else if nd.op = OP_ASSIGN then ge_assign nd s
  else if nd.op = OP_PLUS ∨ nd.op = OP_MINUS then ge_addsub nd s
  else if nd.op = OP_STAR then ge_bin IR_MUL nd s
  else if nd.op = OP_SLASH then ge_bin IR_DIV nd s
  else if nd.op = OP_LT then ge_bin IR_LT nd s
  else
    -- the original assert(0 && "unknown AST type") is commented out in
    -- the source; control reaches the trailing return 0
    .ok (0, s)
termination_by (sizeOf nd, 2)
decreasing_by all_goals (subst_vars; try (injections; subst_vars); decreasing_tactic)

/-- The ND_VARDEF case body of gen_stmt. -/
def gs_vardef : Node → GenSt → Except String GenSt
  | .mk _op ty _val _name offset _lhs _rhs _expr _cond _thn _els ini _body _inc _stmts _args, s =>
    match ini with
    | none => .ok s
    | some i => do
      let (rr, s) ← gen_expr i s
      let l := s.nreg
      let s := { s with nreg := s.nreg + 1 }
      let s := add IR_MOV l 0 s
      let s := add IR_SUB_IMM l offset s
      let s := if ty.ty = TY_PTR then add IR_STORE64 l rr s else add IR_STORE32 l rr s
      let s := kill l s
      .ok (kill rr s)
termination_by n s => (sizeOf n, 1)
decreasing_by all_goals (subst_vars; try (injections; subst_vars); decreasing_tactic)

/-- The if node.els != nil block of the ND_IF case of gen_stmt. -/
def gs_if_else_block : Node → GenSt → Except String GenSt
  | .mk _op _ty _val _name _offset _lhs _rhs _expr cond thn els _ini _body _inc _stmts _args, s =>
    match els with
    | none => .ok s
    | some e =>
      let x := s.nlabel
      let s := { s with nlabel := s.nlabel + 1 }
      let y := s.nlabel
      let s := { s with nlabel := s.nlabel + 1 }
      match cond with
      | none => .error msgNil
      | some c => do
        let (r, s) ← gen_expr c s
        let s := add IR_UNLESS r x s
        let s := kill r s
        match thn with
        | none => .error msgNil
        | some t => do
          let s ← gen_stmt t s
          let s := add IR_JMP y (-1) s
          let s := label x s
          let s ← gen_stmt e s
          .ok (label y s)
termination_by n s => (sizeOf n, 0)
decreasing_by all_goals (subst_vars; try (injections; subst_vars); decreasing_tactic)

/-- The unconditional tail of the ND_IF case of gen_stmt (the
without-else sequence, which the source runs even when an else branch
is present: there is no return at the end of the with-else block). -/
def gs_if_tail : Node → GenSt → Except String GenSt
  | .mk _op _ty _val _name _offset _lhs _rhs _expr cond thn _els _ini _body _inc _stmts _args, s =>
    let x := s.nlabel
    let s := { s with nlabel := s.nlabel + 1 }
    match cond with
    | none => .error msgNil
    | some c => do
      let (r, s) ← gen_expr c s
      let s := add IR_UNLESS r x s
      let s := kill r s
      match thn with
      | none => .error msgNil
      | some t => do
        let s ← gen_stmt t s
        .ok (label x s)
termination_by n s => (sizeOf n, 0)
decreasing_by all_goals (subst_vars; try (injections; subst_vars); decreasing_tactic)

/-- The ND_IF case body of gen_stmt: the with-else block (when els is
non-nil) followed, in every case, by the without-else sequence. -/
def gs_if : Node → GenSt → Except String GenSt
  | nd@(.mk _op _ty _val _name _offset _lhs _rhs _expr _cond _thn els _ini _body _inc _stmts _args), s =>
    match els with
    | none => gs_if_tail nd s
    | some _ => do
      let s ← gs_if_else_block nd s
      gs_if_tail nd s
termination_by n s => (sizeOf n, 1)
decreasing_by all_goals (subst_vars; try (injections; subst_vars); decreasing_tactic)

/-- The ND_FOR case body of gen_stmt. -/
def gs_for : Node → GenSt → Except String GenSt
  | .mk _op _ty _val _name _offset _lhs _rhs _expr cond _thn _els ini body inc _stmts _args, s =>
    let x := s.nlabel
    let s := { s with nlabel := s.nlabel + 1 }
    let y := s.nlabel
    let s := { s with nlabel := s.nlabel + 1 }
    match ini with
    | none => .error msgNil
    | some i => do
      let s ← gen_stmt i s
      let s := add IR_LABEL x (-1) s
      match cond with
      | none => .error msgNil
      | some c => do
        let (r, s) ← gen_expr c s
        let s := add IR_UNLESS r y s
        let s := kill r s
        match body with
        | none => .error msgNil
        | some b => do
          let s ← gen_stmt b s
          match inc with
          | none => .error msgNil
          | some ic => do
            let (ri, s) ← gen_expr ic s
            let s := kill ri s
            let s := add IR_JMP x (-1) s
            .ok (label y s)
termination_by n s => (sizeOf n, 1)
decreasing_by all_goals (subst_vars; try (injections; subst_vars); decreasing_tactic)

/-- The ND_RETURN case body of gen_stmt. -/
def gs_return : Node → GenSt → Except String GenSt
  | .mk _op _ty _val _name _offset _lhs _rhs expr _cond _thn _els _ini _body _inc _stmts _args, s =>
    match expr with
    | none => .error msgNil
    | some e => do
      let (r, s) ← gen_expr e s
      .ok (kill r (add IR_RETURN r (-1) s))
termination_by n s => (sizeOf n, 1)
decreasing_by all_goals (subst_vars; try (injections; subst_vars); decreasing_tactic)

/-- The ND_EXPR_STMT case body of gen_stmt: lower the expression and
kill its result register. -/
def gs_expr_stmt : Node → GenSt → Except String GenSt
  | .mk _op _ty _val _name _offset _lhs _rhs expr _cond _thn _els _ini _body _inc _stmts _args, s =>
    match expr with
    | none => .error msgNil
    | some e => do
      let (r, s) ← gen_expr e s
      .ok (kill r s)
termination_by n s => (sizeOf n, 1)
decreasing_by all_goals (subst_vars; try (injections; subst_vars); decreasing_tactic)

/-- The ND_COMP_STMT loop: lower each child statement in order. -/
def gen_stmt_list : List Node → GenSt → Except String GenSt
  | [], s => .ok s
  | n :: rest, s => do
    let s ← gen_stmt n s
    gen_stmt_list rest s
termination_by ns s => (sizeOf ns, 0)
decreasing_by all_goals (subst_vars; try (injections; subst_vars); decreasing_tactic)

/-- The ND_COMP_STMT case body of gen_stmt. -/
def gs_comp : Node → GenSt → Except String GenSt
  | .mk _op _ty _val _name _offset _lhs _rhs _expr _cond _thn _els _ini _body _inc stmts _args, s =>
    gen_stmt_list stmts s
termination_by n s => (sizeOf n, 1)
decreasing_by all_goals (subst_vars; try (injections; subst_vars); decreasing_tactic)

/-- func gen_stmt(node *Node): the dispatch on node.op, each case body
in its helper; an unhandled opcode is the fatal unknown-node error. -/
def gen_stmt (nd : Node) (s : GenSt) : Except String GenSt :=
  if nd.op = ND_VARDEF then gs_vardef nd s
  else if nd.op = ND_IF then gs_if nd s
  else if nd.op = ND_FOR then gs_for nd s
  else if nd.op = ND_RETURN then gs_return nd s
  else if nd.op = ND_EXPR_STMT then gs_expr_stmt nd s
  else if nd.op = ND_COMP_STMT then gs_comp nd s
  else .error (unknownNodeMsg nd.op)
termination_by (sizeOf nd, 2)
decreasing_by all_goals (subst_vars; try (injections; subst_vars); decreasing_tactic)

end

/-- Formalised from the spec's words for the refinement half of the
call-lowering claim: the same argument loop but with the array write
taken to be total, with no bound check (the spec asserts the six-slot
writes are always in bounds when nargs is at most six). -/
def gen_call_args_spec : List Node → Nat → List Int → GenSt → Except String (List Int × GenSt)
  | [], _, acc, s => .ok (acc, s)
  | n :: rest, i, acc, s => do
    let (r, s) ← gen_expr n s
    gen_call_args_spec rest (i + 1) (acc.set i r) s

end IRGen

namespace Examples

open IRGen

/-- A number-literal node as the parser builds it (op ND_NUM, type int). -/
def mkNum (v : Int) : Node :=
  .mk ND_NUM int_ty v "" 0 none none none none none none none none none [] []

/-- A return statement node. -/
def mkRet (e : Node) : Node :=
  .mk ND_RETURN int_ty 0 "" 0 none none (some e) none none none none none none [] []

/-- var null_stmt = Node{op: ND_NULL} (every other field zero; the Go
nil type pointer is a dummy int_ty here, it is never read). -/
def null_stmt : Node :=
  .mk ND_NULL int_ty 0 "" 0 none none none none none none none none none [] []

/-- An empty compound statement. -/
def emptyComp : Node :=
  .mk ND_COMP_STMT int_ty 0 "" 0 none none none none none none none none none [] []

/-- if (1) return 2; else return 3;  (cond, then and else set). -/
def ifElseNode : Node :=
  .mk ND_IF int_ty 0 "" 0 none none none (some (mkNum 1)) (some (mkRet (mkNum 2)))
    (some (mkRet (mkNum 3))) none none none [] []

/-- while (1) {} as the parser desugars it: ND_FOR with init and inc
both pointing at the shared null_stmt node. -/
def whileNode : Node :=
  .mk ND_FOR int_ty 0 "" 0 none none none (some (mkNum 1)) none none (some null_stmt)
    (some emptyComp) (some null_stmt) [] []

/-- A for loop whose init is an empty block but whose inc is the
ND_NULL node (reaches the inc lowering path). -/
def forNullInc : Node :=
  .mk ND_FOR int_ty 0 "" 0 none none none (some (mkNum 1)) none none (some emptyComp)
    (some emptyComp) (some null_stmt) [] []

/-- An equality node 1 == 2 as the parser builds it (ND_EQ with both
children); its opcode has no case in gen_expr. -/
def eqNode : Node :=
  .mk ND_EQ int_ty 0 "" 0 (some (mkNum 1)) (some (mkNum 2)) none none none none none none none [] []

/-- The type int* (PTR to int, size 8). -/
def ptr_int_ty : CTy := CTy.mk TY_PTR 8 8 (some int_ty) none 0

/-- A pointer-typed local variable reference p at frame offset 8. -/
def pvarNode : Node :=
  .mk ND_LVAR ptr_int_ty 0 "p" 8 none none none none none none none none none [] []

/-- The expression p + 1 with p of type int*. -/
def ptrAddNode : Node :=
  .mk OP_PLUS int_ty 0 "" 0 (some pvarNode) (some (mkNum 1)) none none none none none none none [] []

/-- The call f(7, 9). -/
def callNode : Node :=
  .mk ND_CALL int_ty 0 "f" 0 none none none none none none none none none []
    [mkNum 7, mkNum 9]

/-- The IR of int main() { return 5; }: IMM, RETURN, then the KILL of
the result register. -/
def irReturn5 : List IR :=
  [mkIR IR_IMM 1 5, mkIR IR_RETURN 1 (-1), mkIR IR_KILL 1 (-1)]

/-- An address computation (MOV r1,0 marks the frame pointer; SUB_IMM
forms the address) followed by the KILL of r1 and a fresh IMM, as
gen_lval-based lowering produces. -/
def irKillWrong : List IR :=
  [mkIR IR_MOV 1 0, mkIR IR_SUB_IMM 1 4, mkIR IR_KILL 1 (-1), mkIR IR_IMM 2 9]

/-- The same prefix without the trailing IMM. -/
def irKillPrefix : List IR :=
  [mkIR IR_MOV 1 0, mkIR IR_SUB_IMM 1 4, mkIR IR_KILL 1 (-1)]

/-- A two-instruction body whose MOV carries the frame-pointer sentinel
0 as its rhs. -/
def irMovFP : List IR :=
  [mkIR IR_MOV 1 0, mkIR IR_SUB_IMM 1 4]

/-- A lone CALL instruction with virtual destination 1 and one argument
in virtual register 2. -/
def irCall : IR :=
  ⟨IR_CALL, 1, -1, "f", 1, [2, 0, 0, 0, 0, 0]⟩

/-- A MOV followed by a KILL: the smallest sequence on which alloc_regs
completes. -/
def irMovKill : List IR :=
  [mkIR IR_MOV 1 0, mkIR IR_KILL 1 (-1)]

end Examples

/-! Sequencing lemmas for the Except-embedded control flow. -/

/-- Sequencing after a successful step. -/
theorem except_bind_ok {α β : Type} (a : α) (f : α → Except String β) :
    (Except.ok a >>= f) = f a := rfl

/-- A fatal error aborts the rest of the computation. -/
theorem except_bind_error {α β : Type} (e : String) (f : α → Except String β) :
    ((Except.error e : Except String α) >>= f) = Except.error e := rfl

/-! Properties of the indexing helper. -/

theorem getIdx_ok_iff (xs : List Int) (i v : Int) :
    getIdx xs i = .ok v ↔ 0 ≤ i ∧ xs[i.toNat]? = some v := by
  unfold getIdx
  split
  · rename_i hneg
    constructor
    · intro h; cases h
    · intro h; omega
  · rename_i hpos
    split
    · rename_i w hx
      constructor
      · intro h; cases h; exact ⟨by omega, hx⟩
      · intro h
        rw [hx] at h
        cases h.2
        rfl
    · rename_i hx
      constructor
      · intro h; cases h
      · intro h; rw [h.2] at hx; cases hx

namespace Regalloc

/-! Properties of the free-slot scan. -/

theorem firstFreeAux_lt (l : List Bool) (i j : Nat)
    (h : firstFreeAux l i = some j) : j < i + l.length := by
  induction l generalizing i with
  | nil => cases h
  | cons b rest ih =>
    unfold firstFreeAux at h
    split at h
    · have := ih (i + 1) h
      simp only [List.length_cons]
      omega
    · cases h
      simp only [List.length_cons]
      omega

theorem firstFreeAux_of_false (l : List Bool) (i j : Nat)
    (hj : l[j]? = some false) (hmin : ∀ k, k < j → l[k]? = some true) :
    firstFreeAux l i = some (i + j) := by
  induction l generalizing i j with
  | nil => cases hj
  | cons b rest ih =>
    cases j with
    | zero =>
      simp only [List.getElem?_cons_zero, Option.some.injEq] at hj
      unfold firstFreeAux
      rw [hj]
      simp
    | succ j1 =>
      have hb : b = true := by
        have := hmin 0 (Nat.succ_pos j1)
        simpa using this
      unfold firstFreeAux
      rw [hb]
      simp only [if_pos]
      have : firstFreeAux rest (i + 1) = some (i + 1 + j1) :=
        ih (i + 1) j1 (by simpa using hj)
          (fun k hk => by
            have := hmin (k + 1) (by omega)
            simpa using this)
      rw [this]
      congr 1
      omega

theorem firstFreeAux_of_full (l : List Bool) (i : Nat)
    (h : ∀ k, k < l.length → l[k]? = some true) :
    firstFreeAux l i = none := by
  induction l generalizing i with
  | nil => rfl
  | cons b rest ih =>
    have hb : b = true := by
      have := h 0 (by simp)
      simpa using this
    unfold firstFreeAux
    rw [hb]
    simp only [if_pos]
    exact ih (i + 1) (fun k hk => by
      have := h (k + 1) (by simpa using Nat.succ_lt_succ hk)
      simpa using this)

theorem mapMono_refl (s : RSt) : MapMono s s :=
  fun _ _ h _ => h

theorem mapMono_trans {s1 s2 s3 : RSt} (h1 : MapMono s1 s2) (h2 : MapMono s2 s3) :
    MapMono s1 s3 :=
  fun w m h hm => h2 w m (h1 w m h hm) hm

/-- Everything alloc guarantees on success: the returned index is a
physical register, the invariant is preserved, lengths are unchanged,
recorded mappings are preserved, and the result is now recorded for the
requested virtual register. -/
theorem alloc_ok (v r : Int) (s s1 : RSt)
    (h : alloc v s = .ok (r, s1)) (hinv : RInv s) :
    (0 ≤ r ∧ r < 8) ∧ RInv s1 ∧
    s1.reg_map.length = s.reg_map.length ∧ s1.used.length = s.used.length ∧
    MapMono s s1 ∧ getIdx s1.reg_map v = .ok r := by
  unfold alloc at h
  split at h
  · cases h
  · rename_i m hg
    split at h
    · rename_i hm
      simp only [Except.ok.injEq, Prod.mk.injEq] at h
      obtain ⟨h1, h2⟩ := h
      subst h1
      subst h2
      have hmem : m ∈ s.reg_map := by
        rcases (getIdx_ok_iff s.reg_map v m).mp hg with ⟨_, hx⟩
        exact List.getElem?_mem hx
      rcases hinv.2 m hmem with h1 | h1
      · exact absurd h1 (by simpa using hm)
      · exact ⟨h1, hinv, rfl, rfl, mapMono_refl s, hg⟩
    · rename_i hm
      have hm1 : m = -1 := by omega
      split at h
      · rename_i j hf
        simp only [Except.ok.injEq, Prod.mk.injEq] at h
        obtain ⟨h1, h2⟩ := h
        subst h1
        subst h2
        rcases (getIdx_ok_iff s.reg_map v m).mp hg with ⟨hv0, hvx⟩
        have hvlt : v.toNat < s.reg_map.length :=
          (List.getElem?_eq_some.mp hvx).1
        have h8 := hinv.1
        have hj8 : j < 8 := by
          have := firstFreeAux_lt s.used 0 j hf
          omega
        refine ⟨⟨by omega, by omega⟩, ⟨?_, ?_⟩, ?_, ?_, ?_, ?_⟩
        · simpa using hinv.1
        · intro x hx
          rcases List.mem_or_eq_of_mem_set hx with hx1 | hx1
          · exact hinv.2 x hx1
          · right; constructor <;> omega
        · simp
        · simp
        · intro w m1 hw hm1ne
          rcases (getIdx_ok_iff s.reg_map w m1).mp hw with ⟨hw0, hwx⟩
          refine (getIdx_ok_iff _ w m1).mpr ⟨hw0, ?_⟩
          by_cases hwe : v.toNat = w.toNat
          · exfalso
            rw [← hwe] at hwx
            rw [hvx] at hwx
            cases hwx
            exact hm1ne hm1
          · rw [List.getElem?_set_ne hwe]
            exact hwx
        · refine (getIdx_ok_iff _ v _).mpr ⟨hv0, ?_⟩
          rw [List.getElem?_set_self hvlt]
      · cases h

theorem kill_ok (p : Int) (s s1 : RSt) (h : kill p s = .ok s1) :
    s1.reg_map = s.reg_map ∧ s1.used.length = s.used.length := by
  unfold kill at h
  split at h
  · cases h
    constructor
    · rfl
    · simp
  · cases h

theorem stepOut_mono (a b : IR) (s s1 : RSt) (h : StepOut a b s)
    (hm : MapMono s s1) : StepOut a b s1 := by
  obtain ⟨h1, h2, h3, h4, h5, h6, h7⟩ := h
  refine ⟨h1, h2, h3, h4, h5, h6, fun hsh hz => ?_⟩
  have hb := (h6 hsh).2
  exact hm 0 b.rhs (h7 hsh hz) (by omega)

theorem alloc_regs_step_ok (a b : IR) (s s1 : RSt)
    (h : alloc_regs_step a s = .ok (b, s1)) (hinv : RInv s) :
    RInv s1 ∧ s1.reg_map.length = s.reg_map.length ∧ MapMono s s1 ∧ StepOut a b s1 := by
  simp only [alloc_regs_step] at h
  by_cases hsh1 : (get_irinfo a).ty = IR_TY_REG ∨ (get_irinfo a).ty = IR_TY_REG_IMM ∨
      (get_irinfo a).ty = IR_TY_REG_LABEL
  · rw [if_pos hsh1] at h
    cases hal : alloc a.lhs s with
    | error e => rw [hal] at h; cases h
    | ok ls2 =>
      obtain ⟨l, s2⟩ := ls2
      rw [hal] at h
      dsimp only at h
      obtain ⟨hlB, hinv2, hlen2, hulen2, hmono2, hrec2⟩ := alloc_ok a.lhs l s s2 hal hinv
      by_cases hk : a.op = IR_KILL
      · rw [if_pos hk] at h
        cases hp : getIdx s2.reg_map l with
        | error e => rw [hp] at h; cases h
        | ok p =>
          rw [hp] at h
          dsimp only at h
          cases hkl : kill p s2 with
          | error e => rw [hkl] at h; cases h
          | ok s3 =>
            rw [hkl] at h
            dsimp only at h
            simp only [Except.ok.injEq, Prod.mk.injEq] at h
            obtain ⟨h1, h2⟩ := h
            subst h1
            subst h2
            obtain ⟨hkm, hku⟩ := kill_ok p s2 s3 hkl
            have hmono3 : MapMono s2 s3 := fun w m hw hm => by rw [hkm]; exact hw
            refine ⟨⟨by rw [hku, hulen2]; exact hinv.1, by rw [hkm]; exact hinv2.2⟩,
              by rw [hkm, hlen2], mapMono_trans hmono2 hmono3, ?_⟩
            refine ⟨by simp [hk], rfl, rfl, rfl, ?_, ?_, ?_⟩
            · intro hshape
              exact ⟨hlB, rfl⟩
            · intro hshape
              rcases hsh1 with h' | h' | h' <;>
                (rw [h'] at hshape; exact absurd hshape (by decide))
            · intro hshape
              rcases hsh1 with h' | h' | h' <;>
                (rw [h'] at hshape; exact absurd hshape (by decide))
      · rw [if_neg hk] at h
        simp only [Except.ok.injEq, Prod.mk.injEq] at h
        obtain ⟨h1, h2⟩ := h
        subst h1
        subst h2
        refine ⟨hinv2, hlen2, hmono2, ?_⟩
        refine ⟨by rw [if_neg hk], rfl, rfl, rfl, ?_, ?_, ?_⟩
        · intro hshape
          exact ⟨hlB, rfl⟩
        · intro hshape
          rcases hsh1 with h' | h' | h' <;>
            (rw [h'] at hshape; exact absurd hshape (by decide))
        · intro hshape
          rcases hsh1 with h' | h' | h' <;>
            (rw [h'] at hshape; exact absurd hshape (by decide))
  · rw [if_neg hsh1] at h
    by_cases hsh2 : (get_irinfo a).ty = IR_TY_REG_REG
    · rw [if_pos hsh2] at h
      cases hal : alloc a.lhs s with
      | error e => rw [hal] at h; cases h
      | ok ls2 =>
        obtain ⟨l, s2⟩ := ls2
        rw [hal] at h
        dsimp only at h
        obtain ⟨hlB, hinv2, hlen2, hulen2, hmono2, hrec2⟩ := alloc_ok a.lhs l s s2 hal hinv
        cases har : alloc a.rhs s2 with
        | error e => rw [har] at h; cases h
        | ok rs3 =>
          obtain ⟨r2, s3⟩ := rs3
          rw [har] at h
          dsimp only at h
          obtain ⟨hrB, hinv3, hlen3, hulen3, hmono3, hrec3⟩ := alloc_ok a.rhs r2 s2 s3 har hinv2
          by_cases hk : a.op = IR_KILL
          · rw [if_pos hk] at h
            cases hp : getIdx s3.reg_map l with
            | error e => rw [hp] at h; cases h
            | ok p =>
              rw [hp] at h
              dsimp only at h
              cases hkl : kill p s3 with
              | error e => rw [hkl] at h; cases h
              | ok s4 =>
                rw [hkl] at h
                dsimp only at h
                simp only [Except.ok.injEq, Prod.mk.injEq] at h
                obtain ⟨h1, h2⟩ := h
                subst h1
                subst h2
                obtain ⟨hkm, hku⟩ := kill_ok p s3 s4 hkl
                have hmono4 : MapMono s3 s4 := fun w m hw hm => by rw [hkm]; exact hw
                refine ⟨⟨by rw [hku, hulen3, hulen2]; exact hinv.1, by rw [hkm]; exact hinv3.2⟩,
                  by rw [hkm, hlen3, hlen2],
                  mapMono_trans hmono2 (mapMono_trans hmono3 hmono4), ?_⟩
                refine ⟨by simp [hk], rfl, rfl, rfl, ?_, ?_, ?_⟩
                · intro hshape
                  rcases hshape with h' | h' | h' <;>
                    (rw [h'] at hsh2; exact absurd hsh2 (by decide))
                · intro hshape
                  exact ⟨hlB, hrB⟩
                · intro hshape hz
                  have := hrec3
                  rw [hz] at this
                  rw [hkm]
                  simpa using this
          · rw [if_neg hk] at h
            simp only [Except.ok.injEq, Prod.mk.injEq] at h
            obtain ⟨h1, h2⟩ := h
            subst h1
            subst h2
            refine ⟨hinv3, by rw [hlen3, hlen2], mapMono_trans hmono2 hmono3, ?_⟩
            refine ⟨by rw [if_neg hk], rfl, rfl, rfl, ?_, ?_, ?_⟩
            · intro hshape
              rcases hshape with h' | h' | h' <;>
                (rw [h'] at hsh2; exact absurd hsh2 (by decide))
            · intro hshape
              exact ⟨hlB, hrB⟩
            · intro hshape hz
              have := hrec3
              rw [hz] at this
              simpa using this
    · rw [if_neg hsh2] at h
      dsimp only at h
      by_cases hk : a.op = IR_KILL
      · rw [if_pos hk] at h
        cases hp : getIdx s.reg_map a.lhs with
        | error e => rw [hp] at h; cases h
        | ok p =>
          rw [hp] at h
          dsimp only at h
          cases hkl : kill p s with
          | error e => rw [hkl] at h; cases h
          | ok s2 =>
            rw [hkl] at h
            dsimp only at h
            simp only [Except.ok.injEq, Prod.mk.injEq] at h
            obtain ⟨h1, h2⟩ := h
            subst h1
            subst h2
            obtain ⟨hkm, hku⟩ := kill_ok p s s2 hkl
            have hmono2 : MapMono s s2 := fun w m hw hm => by rw [hkm]; exact hw
            refine ⟨⟨by rw [hku]; exact hinv.1, by rw [hkm]; exact hinv.2⟩,
              by rw [hkm], hmono2, ?_⟩
            refine ⟨by simp [hk], rfl, rfl, rfl, ?_, ?_, ?_⟩
            · intro hshape
              exact absurd hshape hsh1
            · intro hshape
              exact absurd hshape hsh2
            · intro hshape
              exact absurd hshape hsh2
      · rw [if_neg hk] at h
        simp only [Except.ok.injEq, Prod.mk.injEq] at h
        obtain ⟨h1, h2⟩ := h
        subst h1
        subst h2
        refine ⟨hinv, rfl, mapMono_refl s, ?_⟩
        refine ⟨by rw [if_neg hk], rfl, rfl, rfl, ?_, ?_, ?_⟩
        · intro hshape
          exact absurd hshape hsh1
        · intro hshape
          exact absurd hshape hsh2
        · intro hshape
          exact absurd hshape hsh2

theorem alloc_regs_go_spec (irs : List IR) (s : RSt) (out : List IR) (s1 : RSt)
    (h : alloc_regs_go irs s = .ok (out, s1)) (hinv : RInv s) :
    out.length = irs.length ∧ RInv s1 ∧ s1.reg_map.length = s.reg_map.length ∧
    MapMono s s1 ∧
    (∀ (i : Nat) (a b : IR), irs[i]? = some a → out[i]? = some b → StepOut a b s1) := by
  induction irs generalizing s out s1 with
  | nil =>
    unfold alloc_regs_go at h
    simp only [Except.ok.injEq, Prod.mk.injEq] at h
    obtain ⟨h1, h2⟩ := h
    subst h1
    subst h2
    exact ⟨rfl, hinv, rfl, mapMono_refl s, fun i a b ha hb => by cases ha⟩
  | cons ir rest ih =>
    unfold alloc_regs_go at h
    cases hst : alloc_regs_step ir s with
    | error e => rw [hst] at h; cases h
    | ok is2 =>
      obtain ⟨ir1, s2⟩ := is2
      rw [hst] at h
      dsimp only at h
      cases hgo : alloc_regs_go rest s2 with
      | error e => rw [hgo] at h; cases h
      | ok os3 =>
        obtain ⟨rest1, s3⟩ := os3
        rw [hgo] at h
        dsimp only at h
        simp only [Except.ok.injEq, Prod.mk.injEq] at h
        obtain ⟨h1, h2⟩ := h
        subst h1
        subst h2
        obtain ⟨hinv2, hlen2, hmono2, hso⟩ := alloc_regs_step_ok ir ir1 s s2 hst hinv
        obtain ⟨hlenr, hinv3, hlen3, hmono3, hrest⟩ := ih s2 rest1 s3 hgo hinv2
        refine ⟨by simp [hlenr], hinv3, by rw [hlen3, hlen2],
          mapMono_trans hmono2 hmono3, ?_⟩
        intro i a b ha hb
        cases i with
        | zero =>
          simp only [List.getElem?_cons_zero, Option.some.injEq] at ha hb
          subst ha
          subst hb
          exact stepOut_mono ir ir1 s2 s3 hso hmono3
        | succ i1 =>
          simp only [List.getElem?_cons_succ] at ha hb
          exact hrest i1 a b ha hb

theorem RInv_init (n : Nat) :
    RInv ⟨List.replicate n (-1), List.replicate 8 false⟩ := by
  constructor
  · simp
  · intro x hx
    left
    exact List.eq_of_mem_replicate hx

/-- The run-level packaging of the traversal lemma, at the state
alloc_regs itself builds. -/
theorem alloc_regs_spec (irs out : List IR) (fs : RSt)
    (h : alloc_regs irs = .ok (out, fs)) :
    out.length = irs.length ∧ RInv fs ∧
    (∀ (i : Nat) (a b : IR), irs[i]? = some a → out[i]? = some b → StepOut a b fs) := by
  unfold alloc_regs at h
  obtain ⟨h1, h2, h3, h4, h5⟩ :=
    alloc_regs_go_spec irs _ out fs h (RInv_init irs.length)
  exact ⟨h1, h2, h5⟩

/-! Claim theorems about the register allocator. -/

open Examples

/-- C6: alloc returns the previously recorded physical index when the
virtual register is already assigned (changing nothing); otherwise it
assigns and returns the lowest-indexed free register of the eight-entry
pool regs = [rdi, rsi, r10, r11, r12, r13, r14, r15], marking it
occupied and recording it; and when all eight are occupied it fails
fatally with the diagnostic "register exhausted". -/
theorem C6_alloc_lowest_free_or_exhausted (v m : Int) (s : RSt)
    (hv : getIdx s.reg_map v = .ok m)
    (hlen : s.used.length = regs.length) :
    (m ≠ -1 → alloc v s = .ok (m, s)) ∧
    (m = -1 → ∀ j : Nat, s.used[j]? = some false →
      (∀ k, k < j → s.used[k]? = some true) →
      alloc v s = .ok ((j : Int),
        { reg_map := s.reg_map.set v.toNat (j : Int), used := s.used.set j true })) ∧
    (m = -1 → (∀ k, k < 8 → s.used[k]? = some true) →
      alloc v s = .error msgExhausted) := by
  have hlen8 : s.used.length = 8 := by simpa [regs] using hlen
  refine ⟨?_, ?_, ?_⟩
  · intro hm
    unfold alloc
    rw [hv]
    dsimp only
    rw [if_pos (by simpa using hm)]
  · intro hm j hj hmin
    subst hm
    unfold alloc
    rw [hv]
    dsimp only
    rw [if_neg (by simp)]
    have hff : firstFreeAux s.used 0 = some j := by
      have := firstFreeAux_of_false s.used 0 j hj hmin
      simpa using this
    rw [hff]
  · intro hm hfull
    subst hm
    unfold alloc
    rw [hv]
    dsimp only
    rw [if_neg (by simp)]
    have hff : firstFreeAux s.used 0 = none :=
      firstFreeAux_of_full s.used 0 (fun k hk => hfull k (by omega))
    rw [hff]

/-- Witness for C6 at concrete states: an unassigned virtual register 0
receives slot 1 when slot 0 is occupied; an assigned one returns its
recorded slot with the state untouched; a fully occupied pool is the
fatal "register exhausted" error. -/
theorem C6_alloc_lowest_free_or_exhausted_witness :
    getIdx [(-1 : Int)] 0 = .ok (-1) ∧
    alloc 0 ⟨[-1], [true, false, true, true, true, true, true, true]⟩ =
      .ok (1, ⟨[1], [true, true, true, true, true, true, true, true]⟩) ∧
    alloc 0 ⟨[5], [true, true, true, true, true, true, false, true]⟩ =
      .ok (5, ⟨[5], [true, true, true, true, true, true, false, true]⟩) ∧
    alloc 0 ⟨[-1], [true, true, true, true, true, true, true, true]⟩ =
      .error msgExhausted :=
  ⟨rfl,
    (C6_alloc_lowest_free_or_exhausted 0 (-1)
        ⟨[-1], [true, false, true, true, true, true, true, true]⟩ (by rfl) (by rfl)).2.1
      rfl 1 (by rfl) (by decide),
    (C6_alloc_lowest_free_or_exhausted 0 5
        ⟨[5], [true, true, true, true, true, true, false, true]⟩ (by rfl) (by rfl)).1
      (by decide),
    (C6_alloc_lowest_free_or_exhausted 0 (-1)
        ⟨[-1], [true, true, true, true, true, true, true, true]⟩ (by rfl) (by rfl)).2.2
      rfl (by decide)⟩

/-- C5: when alloc_regs completes, the instruction sequence has the
same length with positionally corresponding instructions (opcodes
unchanged except KILL, which is rewritten to NOP, so no KILL survives),
every lhs of a REG-, REG_IMM- or REG_LABEL-shaped instruction and both
operands of every REG_REG-shaped instruction are physical indices in
[0,8). -/
theorem C5_alloc_regs_postconditions (irs out : List IR) (fs : RSt)
    (h : alloc_regs irs = .ok (out, fs)) :
    out.length = irs.length ∧
    ∀ (i : Nat) (a b : IR), irs[i]? = some a → out[i]? = some b →
      b.op ≠ IR_KILL ∧
      (a.op = IR_KILL → b.op = IR_NOP) ∧
      (a.op ≠ IR_KILL → b.op = a.op) ∧
      ((get_irinfo a).ty = IR_TY_REG ∨ (get_irinfo a).ty = IR_TY_REG_IMM ∨
          (get_irinfo a).ty = IR_TY_REG_LABEL ∨ (get_irinfo a).ty = IR_TY_REG_REG →
        0 ≤ b.lhs ∧ b.lhs < 8) ∧
      ((get_irinfo a).ty = IR_TY_REG_REG → 0 ≤ b.rhs ∧ b.rhs < 8) := by
  obtain ⟨hlen, hfin, hstep⟩ := alloc_regs_spec irs out fs h
  refine ⟨hlen, fun i a b ha hb => ?_⟩
  obtain ⟨hop, _, _, _, h5, h6, _⟩ := hstep i a b ha hb
  refine ⟨?_, ?_, ?_, ?_, fun hsh => (h6 hsh).2⟩
  · rw [hop]
    by_cases hk : a.op = IR_KILL
    · rw [if_pos hk]; decide
    · rw [if_neg hk]; exact hk
  · intro hk
    rw [hop, if_pos hk]
  · intro hk
    rw [hop, if_neg hk]
  · intro hsh
    rcases hsh with h' | h' | h' | h'
    · exact ((h5 (Or.inl h')).1)
    · exact ((h5 (Or.inr (Or.inl h'))).1)
    · exact ((h5 (Or.inr (Or.inr h'))).1)
    · exact (h6 h').1

/-- Witness for C5: a MOV of the frame sentinel followed by its KILL;
the run succeeds, the KILL comes out as a NOP and the MOV's operands
are physical. -/
theorem C5_alloc_regs_postconditions_witness :
    alloc_regs irMovKill =
      .ok ([mkIR IR_MOV 0 1, mkIR IR_NOP 0 (-1)],
        ⟨[1, 0], [true, false, false, false, false, false, false, false]⟩) ∧
    ([mkIR IR_MOV 0 1, mkIR IR_NOP 0 (-1)] : List IR).length = irMovKill.length ∧
    (∀ (i : Nat) (a b : IR), irMovKill[i]? = some a →
      ([mkIR IR_MOV 0 1, mkIR IR_NOP 0 (-1)] : List IR)[i]? = some b →
      b.op ≠ IR_KILL) :=
  ⟨rfl,
    (C5_alloc_regs_postconditions irMovKill _ _ rfl).1,
    fun i a b ha hb =>
      ((C5_alloc_regs_postconditions irMovKill _ _ rfl).2 i a b ha hb).1⟩

/-- C4 (code bug): on the IR of int main(){return 5;} the KILL handler
reads reg_map[0] = -1 after the KILL's lhs has already been rewritten
to physical index 0, and then indexes the occupancy array at -1 - a
fatal out-of-range panic instead of freeing map[v] = 0.  On a sequence
whose MOV has already mapped virtual 0, the handler instead frees
physical register 1 (the register of virtual 0) rather than physical 0,
so the next allocation reuses the still-live register 1. -/
theorem C4_kill_frees_wrong_register :
    alloc_regs irReturn5 = .error msgOOB ∧
    alloc_regs irKillWrong =
      .ok ([mkIR IR_MOV 0 1, mkIR IR_SUB_IMM 0 4, mkIR IR_NOP 0 (-1), mkIR IR_IMM 1 9],
        ⟨[1, 0, 1, -1], [true, true, false, false, false, false, false, false]⟩) :=
  ⟨rfl, rfl⟩

/-- C2 (counterexample): alloc_regs leaves a CALL instruction exactly
as it was: its virtual destination register 1 is not rewritten to a
physical index, the args entry (virtual register 2) is not rewritten,
and the allocation map stays empty. -/
theorem C2_call_not_rewritten_counterexample :
    alloc_regs [irCall] =
      .ok ([irCall], ⟨[-1], [false, false, false, false, false, false, false, false]⟩) :=
  rfl

/-- C2 (amended): the alloc_regs loop body does not touch CALL
instructions at all: the shape switch covers only the REG, REG_IMM,
REG_LABEL and REG_REG shapes, CALL's shape is IR_TY_CALL, and a CALL is
not a KILL, so the instruction and the allocator state pass through
unchanged - neither the destination register nor the args array is
rewritten. -/
theorem C2_call_not_rewritten_amended (ir : IR) (s : RSt) (h : ir.op = IR_CALL) :
    alloc_regs_step ir s = .ok (ir, s) := by
  simp [alloc_regs_step, get_irinfo, irinfo, h]

/-- Witness for the amended C2 at the concrete CALL instruction. -/
theorem C2_call_not_rewritten_amended_witness :
    irCall.op = IR_CALL ∧
    alloc_regs_step irCall ⟨[-1], List.replicate 8 false⟩ =
      .ok (irCall, ⟨[-1], List.replicate 8 false⟩) :=
  ⟨rfl, C2_call_not_rewritten_amended irCall ⟨[-1], List.replicate 8 false⟩ rfl⟩

/-- C10 (counterexample): on [MOV r1,0; SUB_IMM r1,4; KILL r1] the
frame-sentinel virtual register 0 is assigned physical register 1, yet
after the run slot 1 of the occupancy array is free: the KILL of r1
(which never names virtual 0) freed virtual 0's register, refuting the
claim that the register stays occupied for the rest of the function. -/
theorem C10_sentinel_zero_counterexample :
    alloc_regs irKillPrefix =
      .ok ([mkIR IR_MOV 0 1, mkIR IR_SUB_IMM 0 4, mkIR IR_NOP 0 (-1)],
        ⟨[1, 0, -1], [true, false, false, false, false, false, false, false]⟩) :=
  rfl

/-- C10 (amended): alloc_regs does treat the operand value 0 of a
REG_REG-shaped instruction (the frame-base sentinel rhs of the MOV
emitted by gen_lval) as an ordinary virtual register: the rhs is passed
through alloc, so slot 0 of the map records a physical register of the
pool, the map entry persists to the end of the run, and the rewritten
rhs is that physical index rather than the literal 0; however the
register does not necessarily remain occupied for the rest of the
function, because the KILL handler frees reg_map[lhs] after lhs was
rewritten to a physical index and can thereby free virtual 0's
register. -/
theorem C10_sentinel_zero_amended (irs out : List IR) (fs : RSt)
    (h : alloc_regs irs = .ok (out, fs)) (i : Nat) (a b : IR)
    (ha : irs[i]? = some a) (hb : out[i]? = some b)
    (hsh : (get_irinfo a).ty = IR_TY_REG_REG) (hz : a.rhs = 0) :
    getIdx fs.reg_map 0 = .ok b.rhs ∧ 0 ≤ b.rhs ∧ b.rhs < 8 := by
  obtain ⟨hlen, hfin, hstep⟩ := alloc_regs_spec irs out fs h
  obtain ⟨_, _, _, _, _, h6, h7⟩ := hstep i a b ha hb
  exact ⟨h7 hsh hz, (h6 hsh).2⟩

/-- Witness for the amended C10: in [MOV r1,0; SUB_IMM r1,4] the MOV's
rhs 0 is rewritten to physical register 1 and the final map records 1
for virtual index 0. -/
theorem C10_sentinel_zero_amended_witness :
    alloc_regs irMovFP =
      .ok ([mkIR IR_MOV 0 1, mkIR IR_SUB_IMM 0 4],
        ⟨[1, 0], [true, true, false, false, false, false, false, false]⟩) ∧
    (get_irinfo (mkIR IR_MOV 1 0)).ty = IR_TY_REG_REG ∧
    getIdx ([1, 0] : List Int) 0 = .ok (mkIR IR_MOV 0 1).rhs :=
  ⟨rfl, rfl,
    (C10_sentinel_zero_amended irMovFP _ _ rfl 0 (mkIR IR_MOV 1 0) (mkIR IR_MOV 0 1)
      rfl rfl rfl rfl).1⟩

end Regalloc

namespace IRGen

open Examples

/-! Dispatch lemmas: gen_expr and gen_stmt route a node to the helper
holding the corresponding switch-case body. -/

theorem gen_expr_dispatch_addsub (op : Int) (hop : op = OP_PLUS ∨ op = OP_MINUS)
    (ty : CTy) (val : Int) (nm : String) (off : Int)
    (lhs rhs e c t el i b ic : Option Node) (st ar : List Node) (s : GenSt) :
    gen_expr (.mk op ty val nm off lhs rhs e c t el i b ic st ar) s =
      ge_addsub (.mk op ty val nm off lhs rhs e c t el i b ic st ar) s := by
  rcases hop with rfl | rfl <;> simp [gen_expr, Node.op]

theorem gen_expr_dispatch_call (ty : CTy) (val : Int) (nm : String) (off : Int)
    (lhs rhs e c t el i b ic : Option Node) (st ar : List Node) (s : GenSt) :
    gen_expr (.mk ND_CALL ty val nm off lhs rhs e c t el i b ic st ar) s =
      ge_call (.mk ND_CALL ty val nm off lhs rhs e c t el i b ic st ar) s := by
  simp [gen_expr, Node.op]

/-- The refinement half of the call-argument loop: when the starting
index plus the number of remaining arguments fits in the array, the
bound-checked loop of the source coincides with the spec's unchecked
loop, i.e. no write is ever out of range. -/
theorem gen_call_args_eq_spec (ns : List Node) :
    ∀ (i : Nat) (acc : List Int) (s : GenSt), i + ns.length ≤ acc.length →
    gen_call_args ns i acc s = gen_call_args_spec ns i acc s := by
  induction ns with
  | nil =>
    intro i acc s hle
    simp [gen_call_args, gen_call_args_spec]
  | cons n rest ih =>
    intro i acc s hle
    simp only [List.length_cons] at hle
    unfold gen_call_args gen_call_args_spec
    cases hge : gen_expr n s with
    | error e => rfl
    | ok rs2 =>
      obtain ⟨r, s2⟩ := rs2
      simp only [except_bind_ok]
      rw [if_pos (by omega)]
      exact ih (i + 1) (acc.set i r) s2 (by simp; omega)

end IRGen

namespace Claims

open IRGen Examples

/-- C1 (code bug): lowering if (1) return 2; else return 3; does NOT
produce only the documented sequence.  The with-else block of the
ND_IF case has no return after it, so control falls through into the
without-else sequence: the condition is evaluated a second time (IMM
into r4) and the then branch is lowered a second time (IMM/RETURN/KILL
on r5), with a third label.  The first twelve instructions are the
claimed sequence; the last seven are the spurious duplicate. -/
theorem C1_if_else_falls_through :
    gen_stmt ifElseNode ⟨[], 1, 0⟩ = .ok ⟨[
      mkIR IR_IMM 1 1, mkIR IR_UNLESS 1 0, mkIR IR_KILL 1 (-1),
      mkIR IR_IMM 2 2, mkIR IR_RETURN 2 (-1), mkIR IR_KILL 2 (-1),
      mkIR IR_JMP 1 (-1), mkIR IR_LABEL 0 (-1),
      mkIR IR_IMM 3 3, mkIR IR_RETURN 3 (-1), mkIR IR_KILL 3 (-1),
      mkIR IR_LABEL 1 (-1),
      mkIR IR_IMM 4 1, mkIR IR_UNLESS 4 2, mkIR IR_KILL 4 (-1),
      mkIR IR_IMM 5 2, mkIR IR_RETURN 5 (-1), mkIR IR_KILL 5 (-1),
      mkIR IR_LABEL 2 (-1)], 6, 3⟩ := by
  simp [ifElseNode, mkRet, mkNum, gen_stmt, gs_if, gs_if_else_block, gs_if_tail, gs_return,
    gen_expr, ge_num, Node.op, Node.ty, add, kill, label, mkIR, except_bind_ok]

/-- C3 (code bug): ND_NULL in a for-loop is not a no-op.  In the init
position (the while-loop desugaring) gen_stmt hits its unknown-node
fatal error on opcode 281; in the inc position gen_expr silently
returns register 0, whose kill then emits a spurious KILL r0
instruction (the fifth instruction below). -/
theorem C3_null_stmt_not_noop :
    gen_stmt whileNode ⟨[], 1, 0⟩ = .error (unknownNodeMsg ND_NULL) ∧
    gen_stmt forNullInc ⟨[], 1, 0⟩ = .ok ⟨[
      mkIR IR_LABEL 0 (-1), mkIR IR_IMM 1 1, mkIR IR_UNLESS 1 1, mkIR IR_KILL 1 (-1),
      mkIR IR_KILL 0 (-1), mkIR IR_JMP 0 (-1), mkIR IR_LABEL 1 (-1)], 2, 2⟩ := by
  constructor
  · simp [whileNode, null_stmt, emptyComp, mkNum, gen_stmt, gs_for, gs_comp,
      gen_stmt_list, gen_expr, ge_num, Node.op, add, kill, label, unknownNodeMsg,
      except_bind_ok, except_bind_error]
  · simp [forNullInc, null_stmt, emptyComp, mkNum, gen_stmt, gs_for, gs_comp,
      gen_stmt_list, gen_expr, ge_num, Node.op, add, kill, label, mkIR, except_bind_ok]

/-- C7: lowering a '+' or '-' whose left operand has pointer type
evaluates the right operand first, emits IMM of the pointee size into a
fresh register, MUL of the operand by it, kills the fresh register,
evaluates the left operand, emits the ADD or SUB on (lhs register, rhs
register), kills the rhs register and returns the lhs register; a
non-pointer left operand goes through plain gen_binop, which emits no
scaling instructions. -/
theorem C7_pointer_scaling (op : Int) (hop : op = OP_PLUS ∨ op = OP_MINUS)
    (ty : CTy) (val : Int) (nm : String) (off : Int)
    (e c t el i b ic : Option Node) (st ar : List Node) (l r : Node) (s : GenSt) :
    (l.ty.ty = TY_PTR →
      ∀ pt, l.ty.ptr_to = some pt →
      ∀ rr s1, gen_expr r s = .ok (rr, s1) →
      ∀ ll s2, gen_expr l (kill s1.nreg (add IR_MUL rr s1.nreg
          (add IR_IMM s1.nreg (size_of pt) { s1 with nreg := s1.nreg + 1 }))) = .ok (ll, s2) →
      gen_expr (.mk op ty val nm off (some l) (some r) e c t el i b ic st ar) s =
        .ok (ll, kill rr (add (if op = OP_PLUS then IR_ADD else IR_SUB) ll rr s2))) ∧
    (l.ty.ty ≠ TY_PTR →
      gen_expr (.mk op ty val nm off (some l) (some r) e c t el i b ic st ar) s =
        gen_binop (if op = OP_PLUS then IR_ADD else IR_SUB) l r s) := by
  constructor
  · intro hptr pt hpt rr s1 h1 ll s2 h2
    rw [gen_expr_dispatch_addsub op hop]
    simp only [IR_MUL, IR_IMM] at h2
    rcases hop with rfl | rfl <;>
      simp [ge_addsub, ge_addsub_ptr, h1, hpt, h2, hptr, size_of_opt, except_bind_ok]
  · intro hptr
    rw [gen_expr_dispatch_addsub op hop]
    have hptr2 : ¬(l.ty.ty = 2) := by simpa using hptr
    rcases hop with rfl | rfl <;>
      simp [ge_addsub, hptr2]

/-- Witness for C7 at p + 1 with p a pointer-typed local: the scaled
sequence IMM 4 / MUL / KILL around the operand evaluations. -/
theorem C7_pointer_scaling_witness :
    ((OP_PLUS : Int) = OP_PLUS ∨ (OP_PLUS : Int) = OP_MINUS) ∧
    pvarNode.ty.ty = TY_PTR ∧
    pvarNode.ty.ptr_to = some int_ty ∧
    gen_expr (mkNum 1) ⟨[], 1, 0⟩ = .ok (1, ⟨[mkIR IR_IMM 1 1], 2, 0⟩) ∧
    gen_expr pvarNode (kill 2 (add IR_MUL 1 2 (add IR_IMM 2 (size_of int_ty)
        { code := [mkIR IR_IMM 1 1], nreg := 3, nlabel := 0 }))) =
      .ok (3, ⟨[mkIR IR_IMM 1 1, mkIR IR_IMM 2 4, mkIR IR_MUL 1 2, mkIR IR_KILL 2 (-1),
        mkIR IR_MOV 3 0, mkIR IR_SUB_IMM 3 8, mkIR IR_LOAD64 3 3], 4, 0⟩) ∧
    gen_expr ptrAddNode ⟨[], 1, 0⟩ =
      .ok (3, kill 1 (add (if (OP_PLUS : Int) = OP_PLUS then IR_ADD else IR_SUB) 3 1
        ⟨[mkIR IR_IMM 1 1, mkIR IR_IMM 2 4, mkIR IR_MUL 1 2, mkIR IR_KILL 2 (-1),
          mkIR IR_MOV 3 0, mkIR IR_SUB_IMM 3 8, mkIR IR_LOAD64 3 3], 4, 0⟩)) := by
  have h1 : gen_expr (mkNum 1) ⟨[], 1, 0⟩ = .ok (1, ⟨[mkIR IR_IMM 1 1], 2, 0⟩) := by
    simp [mkNum, gen_expr, ge_num, Node.op, add, mkIR]
  have h2 : gen_expr pvarNode (kill 2 (add IR_MUL 1 2 (add IR_IMM 2 (size_of int_ty)
      { code := [mkIR IR_IMM 1 1], nreg := 3, nlabel := 0 }))) =
      .ok (3, ⟨[mkIR IR_IMM 1 1, mkIR IR_IMM 2 4, mkIR IR_MUL 1 2, mkIR IR_KILL 2 (-1),
        mkIR IR_MOV 3 0, mkIR IR_SUB_IMM 3 8, mkIR IR_LOAD64 3 3], 4, 0⟩) := by
    simp [pvarNode, ptr_int_ty, int_ty, size_of, CTy.size, gen_expr, ge_lvar, gen_lval,
      Node.op, Node.ty, CTy.ty, add, kill, label, mkIR, except_bind_ok]
  refine ⟨Or.inl rfl, rfl, rfl, h1, h2, ?_⟩
  have := (C7_pointer_scaling OP_PLUS (Or.inl rfl) int_ty 0 "" 0
    none none none none none none none [] [] pvarNode (mkNum 1) ⟨[], 1, 0⟩).1
    rfl int_ty rfl 1 ⟨[mkIR IR_IMM 1 1], 2, 0⟩ h1 3 _ h2
  simpa [ptrAddNode] using this

/-- C8 (counterexample): an ND_EQ node (1 == 2, an opcode gen_expr has
no case for) is lowered with no diagnostic at all: gen_expr silently
returns register 0 and emits nothing - the claim that lowering never
silently continues past an unknown opcode is false. -/
theorem C8_unknown_op_counterexample :
    gen_expr eqNode ⟨[], 1, 0⟩ = .ok (0, ⟨[], 1, 0⟩) := by
  simp [eqNode, mkNum, gen_expr, Node.op]

/-- C8 (amended): an unhandled opcode reaching gen_stmt is the fatal
unknown-node diagnostic, and gen_lval on a node that is neither
ND_DEREF nor ND_LVAR is the fatal not-an-lvalue diagnostic; but an
unhandled opcode reaching gen_expr (ND_EQ or ND_NE, for example) is
not an error: the original assert is commented out and gen_expr
silently returns register 0, emitting nothing. -/
theorem C8_unknown_op_amended (ty : CTy) (val : Int) (nm : String) (off : Int)
    (lhs rhs e c t el i b ic : Option Node) (st ar : List Node) (s : GenSt) :
    gen_expr (.mk ND_EQ ty val nm off lhs rhs e c t el i b ic st ar) s = .ok (0, s) ∧
    gen_expr (.mk ND_NE ty val nm off lhs rhs e c t el i b ic st ar) s = .ok (0, s) ∧
    gen_stmt (.mk ND_EQ ty val nm off lhs rhs e c t el i b ic st ar) s =
      .error (unknownNodeMsg ND_EQ) ∧
    gen_lval (.mk ND_NUM ty val nm off lhs rhs e c t el i b ic st ar) s =
      .error (notLvalueMsg ND_NUM nm) := by
  refine ⟨?_, ?_, ?_, ?_⟩
  · simp [gen_expr, Node.op]
  · simp [gen_expr, Node.op]
  · simp [gen_stmt, Node.op]
  · cases e <;> simp [gen_lval]

/-- C9: a call with at most six arguments indexes the fixed args array
only in bounds (the checked loop equals the spec's unchecked loop), and
gen_expr then emits exactly one CALL instruction - carrying the name,
nargs and the args array - followed by one KILL per argument register,
returning the fresh destination register. -/
theorem C9_call_lowering (ty : CTy) (val : Int) (nm : String) (off : Int)
    (lhs rhs e c t el i b ic : Option Node) (st : List Node) (args : List Node)
    (s : GenSt) (h6 : args.length ≤ 6) :
    gen_call_args args 0 (List.replicate 6 0) s =
      gen_call_args_spec args 0 (List.replicate 6 0) s ∧
    (∀ as6 s1, gen_call_args args 0 (List.replicate 6 0) s = .ok (as6, s1) →
      gen_expr (.mk ND_CALL ty val nm off lhs rhs e c t el i b ic st args) s =
        .ok (s1.nreg, killList (as6.take args.length)
          { s1 with nreg := s1.nreg + 1,
                    code := s1.code ++
                      [⟨IR_CALL, s1.nreg, -1, nm, (args.length : Int), as6⟩] })) := by
  constructor
  · exact gen_call_args_eq_spec args 0 (List.replicate 6 0) s (by simpa using h6)
  · intro as6 s1 hargs
    rw [gen_expr_dispatch_call]
    simp only [List.replicate] at hargs
    simp [ge_call, hargs, except_bind_ok]

/-- Witness for C9 at f(7, 9): two argument registers, the CALL with
nargs = 2 and args = [1, 2, 0, 0, 0, 0], then KILL r1 and KILL r2. -/
theorem C9_call_lowering_witness :
    ([mkNum 7, mkNum 9] : List Node).length ≤ 6 ∧
    gen_call_args [mkNum 7, mkNum 9] 0 (List.replicate 6 0) ⟨[], 1, 0⟩ =
      .ok ([1, 2, 0, 0, 0, 0], ⟨[mkIR IR_IMM 1 7, mkIR IR_IMM 2 9], 3, 0⟩) ∧
    gen_expr callNode ⟨[], 1, 0⟩ =
      .ok (3, killList ([1, 2, 0, 0, 0, 0].take 2)
        { code := [mkIR IR_IMM 1 7, mkIR IR_IMM 2 9] ++
            [⟨IR_CALL, 3, -1, "f", 2, [1, 2, 0, 0, 0, 0]⟩],
          nreg := 4, nlabel := 0 }) := by
  have hargs : gen_call_args [mkNum 7, mkNum 9] 0 (List.replicate 6 0) ⟨[], 1, 0⟩ =
      .ok ([1, 2, 0, 0, 0, 0], ⟨[mkIR IR_IMM 1 7, mkIR IR_IMM 2 9], 3, 0⟩) := by
    simp [gen_call_args, mkNum, gen_expr, ge_num, Node.op, add, mkIR, except_bind_ok,
      List.replicate, List.set]
  refine ⟨by decide, hargs, ?_⟩
  have := (C9_call_lowering int_ty 0 "f" 0 none none none none none none none none
    none [] [mkNum 7, mkNum 9] ⟨[], 1, 0⟩ (by decide)).2 [1, 2, 0, 0, 0, 0]
    ⟨[mkIR IR_IMM 1 7, mkIR IR_IMM 2 9], 3, 0⟩ hargs
  simpa [callNode] using this

end Claims

end Hal
